import Mathlib

/-!
# Verification of the tardisjs native-driver execute command module and CLI

This file gives a shallow embedding of
`lib/tardis-driver-native/lib/commands/execute.js` (the command-queue adapter:
`execute`, `executeAsync`, `asyncScriptTimeout`, `waitFor`, `thenLocal` and
their result callbacks) and of the flag-processing part of the CLI
bootstrapper (`loadDalek`), together with theorems about them.

Modelling conventions:
* Parsed JSON data (the result of the `JSON.parse` builtin) is represented by
  the inductive type `JVal`; JavaScript `undefined` is a `JVal` constructor
  because missing-property reads produce it.
* JavaScript property access `o.f` is `JVal.getField`: it throws (returns
  `.error`) on `null`/`undefined` receivers and yields `undefined` for a
  missing property, mirroring the runtime. Built-in prototype properties are
  not modelled; none of the property names read by this module (`value`,
  `status`, `message`, `userRet`) collide with one.
* Exceptions are `Except String`; a total return type means the JavaScript
  code cannot throw on any input of the modelled shape.
* Scripts are opaque functions carrying their source text (`JSFunc`), since
  the adapter only ever calls `script.toString()` on them.
* JSON numbers are modelled as `Int`; every number this module inspects or
  produces is integral.
-/

/-- A JavaScript value as produced by `JSON.parse`, extended with `undefined`
(the result of reading a missing property). -/
inductive JVal where
  | undefined : JVal
  | null : JVal
  | bool (b : Bool) : JVal
  | num (n : Int) : JVal
  | str (s : String) : JVal
  | arr (elems : List JVal) : JVal
  | obj (fields : List (String × JVal)) : JVal

/-- JavaScript property access `o.f`: throws a `TypeError` when the receiver
is `null` or `undefined`, returns the field (or `undefined` when absent) on an
object, and `undefined` on any other primitive. -/
def JVal.getField : JVal → String → Except String JVal
  | .null, f => .error ("TypeError: Cannot read property " ++ f ++ " of null")
  | .undefined, f => .error ("TypeError: Cannot read property " ++ f ++ " of undefined")
  | .obj fields, f =>
      .ok (match fields.lookup f with
           | some v => v
           | none => .undefined)
  | _, _ => .ok .undefined

/-- JavaScript strict equality `x === true`. -/
def JVal.strictEqTrue : JVal → Bool
  | .bool true => true
  | _ => false

/-- JavaScript strict equality `x === 0`. -/
def JVal.strictEqZero : JVal → Bool
  | .num 0 => true
  | _ => false

/-- A JavaScript function as passed to `execute`/`executeAsync`/`waitFor`:
the adapter treats it opaquely, using only its source text via `toString()`. -/
structure JSFunc where
  src : String

/-- `script.toString()`: the source text of the function. -/
def JSFunc.toString (f : JSFunc) : String := f.src

/-- The payload handed to the remote WebDriver client `execute` /
`executeAsync` operations: `{script: script.toString(), arguments: args}`. -/
structure RemotePayload where
  script : String
  arguments : List JVal

/-- The record emitted on the `driver:message` event channel.
`value` / `errorMessage` are `none` when the corresponding property is absent
from the emitted object literal. -/
structure Message where
  key : String
  value : Option JVal
  errorMessage : Option JVal
  uuid : String
  hash : String

/-- One entry of the action queue: either a bound call to the remote
WebDriver client, or one of the bound result callbacks of the adapter. The
closures are represented by their captured arguments; they are not invoked
at enqueue time. -/
inductive QueuedAction where
  | remoteExecute (payload : RemotePayload) : QueuedAction
  | remoteExecuteAsync (payload : RemotePayload) : QueuedAction
  | remoteAsyncScript (timeout : Int) : QueuedAction
  | cbExecute (script : String) (args : List JVal) (hash : String) : QueuedAction
  | cbExecuteAsync (script : String) (args : List JVal) (hash : String) : QueuedAction
  | cbAsyncScriptTimeout (timeout : Int) (hash : String) : QueuedAction
  | cbWaitFor (script : String) (args : List JVal) (timeout : Int) (hash : String) : QueuedAction
  | cbThenLocal (funcId : Nat) (hash : String) : QueuedAction

/-- The mutable state of the driver object that the `Execute` mixin touches:
its action queue, plus the log of `driver:message` events emitted so far
(the event bus itself is an external collaborator; we record what is
published on it). -/
structure Driver where
  actionQueue : List QueuedAction
  emitted : List Message

/-- `execute(script, args, hash)`: pushes the bound remote `execute` call and
the bound `_setExecuteCb`, then returns `this`. -/
def execute (d : Driver) (script : JSFunc) (args : List JVal) (hash : String) : Driver :=
  { d with actionQueue := d.actionQueue ++
      [QueuedAction.remoteExecute ⟨script.toString, args⟩,
       QueuedAction.cbExecute script.toString args hash] }

/-- `_setExecuteCb(script, args, hash, data)`: parses the serialized result and
emits a message with key `execute`, value `JSON.parse(data).value`, and `uuid`/`hash` both the hash.
The `data` parameter is the already-parsed JSON value. -/
def _setExecuteCb (hash : String) (data : JVal) : Except String Message := do
  let v ← data.getField "value"
  pure { key := "execute", value := some v, errorMessage := none, uuid := hash, hash := hash }

/-- `executeAsync(script, args, hash)`: pushes the bound remote `executeAsync`
call and the bound `_setExecuteAsyncCb`, then returns `this`. -/
def executeAsync (d : Driver) (script : JSFunc) (args : List JVal) (hash : String) : Driver :=
  { d with actionQueue := d.actionQueue ++
      [QueuedAction.remoteExecuteAsync ⟨script.toString, args⟩,
       QueuedAction.cbExecuteAsync script.toString args hash] }

/-- `_setExecuteAsyncCb(script, args, hash, data)`: parses the result; on
`dataObj.status === 0` emits a success message carrying `dataObj.value`, else
emits a message carrying `dataObj.value.message` as `errorMessage`. -/
def _setExecuteAsyncCb (hash : String) (data : JVal) : Except String Message := do
  let status ← data.getField "status"
  if status.strictEqZero then
    let v ← data.getField "value"
    pure { key := "executeAsync", value := some v, errorMessage := none,
           uuid := hash, hash := hash }
  else
    let v ← data.getField "value"
    let m ← v.getField "message"
    pure { key := "executeAsync", value := none, errorMessage := some m,
           uuid := hash, hash := hash }

/-- `asyncScriptTimeout(timeout, hash)`: pushes the bound remote
`asyncScript` call (what the spec calls "set the remote async-script timeout"
operation) and the bound `_setAsyncScriptTimeoutCb`, then returns `this`. -/
def asyncScriptTimeout (d : Driver) (timeout : Int) (hash : String) : Driver :=
  { d with actionQueue := d.actionQueue ++
      [QueuedAction.remoteAsyncScript timeout,
       QueuedAction.cbAsyncScriptTimeout timeout hash] }

/-- `_setAsyncScriptTimeoutCb(timeout, hash)`: unconditionally emits
a message with key `asyncScriptTimeout`, empty-string value, and `uuid`/`hash` both the hash. It inspects
no result data, so it is total. -/
def _setAsyncScriptTimeoutCb (timeout : Int) (hash : String) : Message :=
  { key := "asyncScriptTimeout", value := some (.str ""), errorMessage := none,
    uuid := hash, hash := hash }

/-- `waitFor(script, args, timeout, hash)`: pushes the bound remote `execute`
call and the bound `_waitForCb`, then returns `this`. -/
def waitFor (d : Driver) (script : JSFunc) (args : List JVal) (timeout : Int) (hash : String) : Driver :=
  { d with actionQueue := d.actionQueue ++
      [QueuedAction.remoteExecute ⟨script.toString, args⟩,
       QueuedAction.cbWaitFor script.toString args timeout hash] }

/-- `thenLocal(func, hash)`: pushes the bound `_setThenLocalCb` (a single
entry; the `deferred` created in its body is dead) and returns `this`.
The opaque user function is identified by `funcId`. -/
def thenLocal (d : Driver) (funcId : Nat) (hash : String) : Driver :=
  { d with actionQueue := d.actionQueue ++ [QueuedAction.cbThenLocal funcId hash] }

/-! ## The waitFor poll/timeout process

`_waitForCb` races a `setTimeout` timer against a poll loop (`checker`) that
re-issues the remote `execute` call until the script reports
`value.userRet === true`. We model the process as a state machine driven by
the two event sources: the timer firing, and a poll response arriving. -/

/-- The success message of `waitFor`:
key `waitFor`, empty-string value, `uuid`/`hash` both the hash. -/
def waitForSuccessMsg (hash : String) : Message :=
  { key := "waitFor", value := some (.str ""), errorMessage := none,
    uuid := hash, hash := hash }

/-- The timeout message of `waitFor`:
key `waitFor`, value the string `Interrupted by timeout`, `uuid`/`hash` both the hash. -/
def waitForTimeoutMsg (hash : String) : Message :=
  { key := "waitFor", value := some (.str "Interrupted by timeout"), errorMessage := none,
    uuid := hash, hash := hash }

/-- State of one `_waitForCb` invocation: the `driver:message` events emitted
so far (in order), whether the `setTimeout` timer is still pending
(`timeoutId` set and neither fired nor cleared), whether a remote poll issued
by the loop is in flight awaiting its response, and whether the deferred has
been resolved. -/
structure WaitState where
  messages : List Message
  timerArmed : Bool
  pendingPoll : Bool
  resolved : Bool

/-- The test `JSON.parse(data).value.userRet === true` applied to parsed
data: may throw when `value` is `null`/`undefined`. -/
def userRetTrue (data : JVal) : Except String Bool := do
  let v ← data.getField "value"
  let u ← v.getField "userRet"
  pure u.strictEqTrue

/-- The synchronous body of `_waitForCb(script, args, timeout, hash, data)`:
arms the timer, then tests `ret.value.userRet === true` on the first result.
If true it emits the success message, clears the timer and resolves; else the
timer stays armed and a fresh remote poll is issued (in flight). A throwing
body is modelled as `.error` (in the source the armed timer would survive
such a throw; no claim depends on that path). -/
def _waitForCb (hash : String) (ret : JVal) : Except String WaitState := do
  let b ← userRetTrue ret
  if b then
    pure { messages := [waitForSuccessMsg hash], timerArmed := false,
           pendingPoll := false, resolved := true }
  else
    pure { messages := [], timerArmed := true, pendingPoll := true, resolved := false }

/-- An event delivered to a pending `_waitForCb` process: the timer firing,
or the serialized response of the in-flight poll arriving (already parsed). -/
inductive WaitEvent where
  | timeout : WaitEvent
  | pollResponse (yData : JVal) : WaitEvent

/-- Whether an event is the timer firing. -/
def WaitEvent.isTimeout : WaitEvent → Bool
  | .timeout => true
  | .pollResponse _ => false

/-- Whether an event is not a poll response reporting the true sentinel: a
timeout, or a response whose `value.userRet` test evaluates (without
throwing) to false. -/
def WaitEvent.nonTrueResp : WaitEvent → Bool
  | .timeout => true
  | .pollResponse y =>
      match userRetTrue y with
      | .ok false => true
      | _ => false

/-- The `checker` continuation of `_waitForCb`: on a true `userRet` it emits
the success message, clears the timer and resolves — with no guard against
the timeout having already fired; otherwise it re-issues the remote poll. -/
def checker (hash : String) (s : WaitState) (yData : JVal) : Except String WaitState := do
  let b ← userRetTrue yData
  if b then
    pure { s with messages := s.messages ++ [waitForSuccessMsg hash],
                  timerArmed := false, pendingPoll := false, resolved := true }
  else
    pure { s with pendingPoll := true }

/-- The `setTimeout` handler of `_waitForCb`: emits the timeout message,
clears the (just-fired) timer and resolves. The in-flight poll is NOT
cancelled. -/
def onTimeout (hash : String) (s : WaitState) : WaitState :=
  { s with messages := s.messages ++ [waitForTimeoutMsg hash],
           timerArmed := false, resolved := true }

/-- One step of the `_waitForCb` process. The timer can only fire while
armed; a poll response is only delivered while a poll is in flight. -/
def waitStep (hash : String) (s : WaitState) : WaitEvent → Except String WaitState
  | .timeout => if s.timerArmed then .ok (onTimeout hash s) else .ok s
  | .pollResponse y => if s.pendingPoll then checker hash s y else .ok s

/-- Run the `_waitForCb` process over a sequence of events. -/
def runWait (hash : String) (s : WaitState) : List WaitEvent → Except String WaitState
  | [] => .ok s
  | e :: evs => do
      let s' ← waitStep hash s e
      runWait hash s' evs

/-! ## Flag processing in the CLI bootstrapper

Models the configuration assembly of `loadDalek`: JavaScript
`String.prototype.split` at commas, unary-plus numeric coercion (restricted to
optional-sign decimal integer strings — the only shapes reaching it here),
and string truthiness (falsy iff empty). Absent flags are `none`. -/

/-- Accumulating helper for splitting a character list at commas. -/
def splitCommaAux : List Char → List Char → List String
  | [], acc => [String.mk acc.reverse]
  | c :: cs, acc =>
      if c = ',' then String.mk acc.reverse :: splitCommaAux cs []
      else splitCommaAux cs (c :: acc)

/-- JavaScript `s.split` at commas: e.g. `a,b,c` to `[a, b, c]`, the empty string to `[empty]`,
and `a,` to `[a, empty]`. -/
def jsSplitComma (s : String) : List String :=
  splitCommaAux s.toList []

/-- Digit-string accumulator for numeric coercion. -/
def digitsValAux : List Char → Nat → Option Nat
  | [], acc => some acc
  | c :: cs, acc =>
      if c.isDigit then digitsValAux cs (acc * 10 + (c.toNat - 48))
      else none

/-- JavaScript unary plus `+s` on a string, restricted to optional-sign
decimal integer literals: `"" ↦ 0`, digit strings to their value, anything
else to `NaN` (modelled as `none`). -/
def jsUnaryPlus (s : String) : Option Int :=
  match s.toList with
  | [] => some 0
  | '-' :: [] => none
  | '-' :: c :: cs => (digitsValAux (c :: cs) 0).map (fun n => -(n : Int))
  | cs => (digitsValAux cs 0).map (fun n => (n : Int))

/-- `+x` where `x` may be `undefined` (`+undefined` is `NaN`). -/
def jsUnaryPlusOpt : Option String → Option Int
  | none => none
  | some s => jsUnaryPlus s

/-- JavaScript truthiness of an optional string flag: truthy iff present and
nonempty. -/
def truthyStr : Option String → Bool
  | none => false
  | some s => !(s == "")

/-- The viewport computation of `loadDalek`: split at commas, coerce both
components with unary plus; if either is `NaN` the option is the empty
object (`none`), else `{width, height}`. -/
def viewportOption (viewport : String) : Option (Int × Int) :=
  let viewportDimensions := jsSplitComma viewport
  let viewportWidth := jsUnaryPlusOpt (viewportDimensions.get? 0)
  let viewportHeight := jsUnaryPlusOpt (viewportDimensions.get? 1)
  match viewportWidth, viewportHeight with
  | some w, some h => some (w, h)
  | _, _ => none

/-- A comma-separated list flag: comma-split when truthy, else the empty list. -/
def commaFlag (flag : Option String) : List String :=
  match flag with
  | some s => if s == "" then [] else jsSplitComma s
  | none => []

/-- The configuration fields assembled by `loadDalek` that this development
reasons about. `viewport = none` models the empty object `{}`. -/
structure DalekConfig where
  driver : List String
  reporter : List String
  browser : List String
  viewport : Option (Int × Int)

/-- The flag-to-configuration mapping of `loadDalek`:
`driver`/`reporter`/`browser` are comma-split when the flag is truthy,
`viewport` is `viewportOption` guarded by truthiness of the flag. -/
def loadDalek (driverFlag reporterFlag browserFlag viewportFlag : Option String) : DalekConfig :=
  { driver := commaFlag driverFlag
    reporter := commaFlag reporterFlag
    browser := commaFlag browserFlag
    viewport :=
      match viewportFlag with
      | some s => if s == "" then none else viewportOption s
      | none => none }

/-- Example parsed poll result reporting `userRet` false. -/
def pollFalseData : JVal :=
  JVal.obj [("value", JVal.obj [("userRet", JVal.bool false)])]

/-- Example parsed poll result reporting `userRet` true. -/
def pollTrueData : JVal :=
  JVal.obj [("value", JVal.obj [("userRet", JVal.bool true)])]

/-- The state right after `_waitForCb` saw a non-true first result: nothing
emitted, timer armed, poll in flight. -/
def waitPendingState : WaitState :=
  { messages := [], timerArmed := true, pendingPoll := true, resolved := false }

/-- The state after the timer fired on a pending wait. -/
def waitTimedOutState (hash : String) : WaitState :=
  { messages := [waitForTimeoutMsg hash], timerArmed := false, pendingPoll := true,
    resolved := true }

/-- The state right after `_waitForCb` saw a true first result. -/
def waitDoneState (hash : String) : WaitState :=
  { messages := [waitForSuccessMsg hash], timerArmed := false, pendingPoll := false,
    resolved := true }

/-- Example status-0 executeAsync payload. -/
def asyncOkData : JVal :=
  JVal.obj [("status", JVal.num 0), ("value", JVal.str "ok")]

/-- Example nonzero-status executeAsync payload with a message. -/
def asyncErrData : JVal :=
  JVal.obj [("status", JVal.num 13), ("value", JVal.obj [("message", JVal.str "boom")])]

/-! ## Helper lemmas for the waitFor process -/

/-- A record update that rewrites `pendingPoll` to its current value is the
identity. -/
lemma WaitState.update_pendingPoll_self (s : WaitState) (h : s.pendingPoll = true) :
    { s with pendingPoll := true } = s := by
  cases s
  simp_all

/-- Unfolding `runWait` on a cons. -/
lemma runWait_cons (hash : String) (s : WaitState) (e : WaitEvent) (evs : List WaitEvent) :
    runWait hash s (e :: evs) = (waitStep hash s e) >>= (fun s' => runWait hash s' evs) := rfl

/-- A disarmed timer cannot fire. -/
lemma waitStep_timeout_disarmed (hash : String) (s : WaitState) (ht : s.timerArmed = false) :
    waitStep hash s WaitEvent.timeout = Except.ok s := by
  simp [waitStep, ht]

/-- An armed timer firing produces the timed-out state. -/
lemma waitStep_timeout_armed (hash : String) (s : WaitState) (ht : s.timerArmed = true) :
    waitStep hash s WaitEvent.timeout = Except.ok (onTimeout hash s) := by
  simp [waitStep, ht]

/-- `checker` on a response whose `userRet` test is false only re-issues the
poll. -/
lemma checker_nonTrue (hash : String) (s : WaitState) (y : JVal)
    (h : userRetTrue y = Except.ok false) :
    checker hash s y = Except.ok { s with pendingPoll := true } := by
  unfold checker
  rw [h]
  rfl

/-- A poll response that does not report the true sentinel leaves the state
unchanged. -/
lemma waitStep_nonTrue_poll (hash : String) (s : WaitState) (y : JVal)
    (h : userRetTrue y = Except.ok false) (hpp : s.pendingPoll = true) :
    waitStep hash s (WaitEvent.pollResponse y) = Except.ok s := by
  unfold waitStep
  rw [hpp]
  simp [checker_nonTrue hash s y h, WaitState.update_pendingPoll_self s hpp]

/-- A poll response with no pending poll is not delivered. -/
lemma waitStep_no_pending (hash : String) (s : WaitState) (y : JVal)
    (hpp : s.pendingPoll = false) :
    waitStep hash s (WaitEvent.pollResponse y) = Except.ok s := by
  simp [waitStep, hpp]

/-- The non-true classification of a poll response gives the `userRet` test. -/
lemma nonTrueResp_poll (y : JVal) (h : (WaitEvent.pollResponse y).nonTrueResp = true) :
    userRetTrue y = Except.ok false := by
  simp only [WaitEvent.nonTrueResp] at h
  cases hu : userRetTrue y with
  | ok b =>
      cases b
      · rfl
      · rw [hu] at h
        simp at h
  | error e =>
      rw [hu] at h
      simp at h

/-- With the timer disarmed and a poll pending, a run of non-true events
leaves the state untouched: late timeouts cannot fire and late non-true
responses only re-poll. -/
lemma runWait_disarmed_stable (hash : String) (evs : List WaitEvent) (s : WaitState)
    (ht : s.timerArmed = false) (hpp : s.pendingPoll = true)
    (hall : evs.all WaitEvent.nonTrueResp = true) :
    runWait hash s evs = Except.ok s := by
  induction evs with
  | nil => rfl
  | cons e evs ih =>
      rw [List.all_cons, Bool.and_eq_true] at hall
      cases e with
      | timeout =>
          rw [runWait_cons, waitStep_timeout_disarmed hash s ht]
          exact ih hall.2
      | pollResponse y =>
          rw [runWait_cons, waitStep_nonTrue_poll hash s y (nonTrueResp_poll y hall.1) hpp]
          exact ih hall.2

/-- After a success the process is inert: timer cleared and no poll in
flight, so every later event is a no-op. -/
lemma runWait_inert (hash : String) (evs : List WaitEvent) (s : WaitState)
    (ht : s.timerArmed = false) (hpp : s.pendingPoll = false) :
    runWait hash s evs = Except.ok s := by
  induction evs with
  | nil => rfl
  | cons e evs ih =>
      cases e with
      | timeout =>
          rw [runWait_cons, waitStep_timeout_disarmed hash s ht]
          exact ih
      | pollResponse y =>
          rw [runWait_cons, waitStep_no_pending hash s y hpp]
          exact ih

/-- From an armed, polling state, a run of non-true events in which the timer
fires exactly once ends in exactly the timed-out state. -/
lemma runWait_until_timeout (hash : String) (evs : List WaitEvent) (s : WaitState)
    (harm : s.timerArmed = true) (hpp : s.pendingPoll = true)
    (hall : evs.all WaitEvent.nonTrueResp = true)
    (hcount : evs.countP WaitEvent.isTimeout = 1) :
    runWait hash s evs = Except.ok (onTimeout hash s) := by
  induction evs generalizing s with
  | nil => simp [List.countP_nil] at hcount
  | cons e evs ih =>
      rw [List.all_cons, Bool.and_eq_true] at hall
      cases e with
      | timeout =>
          rw [runWait_cons, waitStep_timeout_armed hash s harm]
          exact runWait_disarmed_stable hash evs (onTimeout hash s) rfl hpp hall.2
      | pollResponse y =>
          rw [runWait_cons, waitStep_nonTrue_poll hash s y (nonTrueResp_poll y hall.1) hpp]
          rw [List.countP_cons] at hcount
          simp [WaitEvent.isTimeout] at hcount
          exact ih s harm hpp hall.2 hcount

/-! ## Reduction lemmas for the Except monad -/

/-- Bind on a success reduces. -/
lemma exceptOkBind {α β : Type} (a : α) (f : α → Except String β) :
    (Except.ok a >>= f) = f a := rfl

/-- Bind on an error propagates the error. -/
lemma exceptErrorBind {α β : Type} (e : String) (f : α → Except String β) :
    ((Except.error e : Except String α) >>= f) = Except.error e := rfl

/-- An error never equals a success. -/
lemma exceptErrorNeOk {α : Type} (e : String) (a : α) :
    (Except.error e : Except String α) ≠ Except.ok a := by
  intro h
  exact Except.noConfusion h

/-- `checker` on a response that reports the true sentinel emits the success
message, clears the timer and resolves, whatever happened before. -/
lemma checker_true (hash : String) (s : WaitState) (y : JVal)
    (h : userRetTrue y = Except.ok true) :
    checker hash s y = Except.ok { s with
      messages := s.messages ++ [waitForSuccessMsg hash],
      timerArmed := false, pendingPoll := false, resolved := true } := by
  unfold checker
  rw [h]
  rfl

/-- `checker` propagates a throwing `userRet` test. -/
lemma checker_error (hash : String) (s : WaitState) (y : JVal) (e : String)
    (h : userRetTrue y = Except.error e) :
    checker hash s y = Except.error e := by
  unfold checker
  rw [h]
  rfl

/-! ## Correlation-hash invariant -/

/-- A single step only appends messages whose `uuid` and `hash` are the
correlation hash. -/
lemma waitStep_uuid_inv (hash : String) (s s' : WaitState) (e : WaitEvent)
    (hstep : waitStep hash s e = Except.ok s')
    (hinv : ∀ m ∈ s.messages, m.uuid = hash ∧ m.hash = hash) :
    ∀ m ∈ s'.messages, m.uuid = hash ∧ m.hash = hash := by
  cases e with
  | timeout =>
      by_cases ht : s.timerArmed = true
      · rw [waitStep_timeout_armed hash s ht] at hstep
        have hs' := (Except.ok.inj hstep).symm
        subst hs'
        intro m hm
        unfold onTimeout at hm
        simp only [List.mem_append, List.mem_singleton] at hm
        rcases hm with hm | hm
        · exact hinv m hm
        · subst hm
          exact ⟨rfl, rfl⟩
      · rw [Bool.not_eq_true] at ht
        rw [waitStep_timeout_disarmed hash s ht] at hstep
        have hs' := (Except.ok.inj hstep).symm
        subst hs'
        exact hinv
  | pollResponse y =>
      by_cases hpp : s.pendingPoll = true
      · have hstep2 : checker hash s y = Except.ok s' := by
          rw [← hstep]
          show checker hash s y = if s.pendingPoll = true then checker hash s y else Except.ok s
          rw [if_pos hpp]
        cases hu : userRetTrue y with
        | error e =>
            rw [checker_error hash s y e hu] at hstep2
            exact absurd hstep2 (exceptErrorNeOk e s')
        | ok b =>
            cases b with
            | true =>
                rw [checker_true hash s y hu] at hstep2
                have hs' := (Except.ok.inj hstep2).symm
                subst hs'
                intro m hm
                simp only [List.mem_append, List.mem_singleton] at hm
                rcases hm with hm | hm
                · exact hinv m hm
                · subst hm
                  exact ⟨rfl, rfl⟩
            | false =>
                rw [checker_nonTrue hash s y hu] at hstep2
                have hs' := (Except.ok.inj hstep2).symm
                subst hs'
                exact hinv
      · rw [Bool.not_eq_true] at hpp
        rw [waitStep_no_pending hash s y hpp] at hstep
        have hs' := (Except.ok.inj hstep).symm
        subst hs'
        exact hinv

/-- The invariant is preserved along a whole run. -/
lemma runWait_uuid_inv (hash : String) (evs : List WaitEvent) (s s' : WaitState)
    (hrun : runWait hash s evs = Except.ok s')
    (hinv : ∀ m ∈ s.messages, m.uuid = hash ∧ m.hash = hash) :
    ∀ m ∈ s'.messages, m.uuid = hash ∧ m.hash = hash := by
  induction evs generalizing s with
  | nil =>
      have hs' := (Except.ok.inj hrun).symm
      subst hs'
      exact hinv
  | cons e evs ih =>
      rw [runWait_cons] at hrun
      cases hstep : waitStep hash s e with
      | error msg =>
          rw [hstep, exceptErrorBind] at hrun
          exact absurd hrun (exceptErrorNeOk msg s')
      | ok s₁ =>
          rw [hstep, exceptOkBind] at hrun
          exact ih s₁ hrun (waitStep_uuid_inv hash s s₁ e hstep hinv)

/-! ## Characterizations of the result callbacks -/

/-- `_setExecuteCb` on a readable `value` field emits the success message. -/
lemma _setExecuteCb_ok (hash : String) (data v : JVal)
    (hv : data.getField "value" = Except.ok v) :
    _setExecuteCb hash data = Except.ok
      { key := "execute", value := some v, errorMessage := none, uuid := hash, hash := hash } := by
  unfold _setExecuteCb
  rw [hv, exceptOkBind]
  rfl

/-- `_setExecuteCb` propagates a throwing `value` read. -/
lemma _setExecuteCb_error (hash : String) (data : JVal) (e : String)
    (hv : data.getField "value" = Except.error e) :
    _setExecuteCb hash data = Except.error e := by
  unfold _setExecuteCb
  rw [hv, exceptErrorBind]

/-- `_setExecuteAsyncCb` on `status === 0` emits the value-carrying message. -/
lemma _setExecuteAsyncCb_ok_zero (hash : String) (data st v : JVal)
    (hst : data.getField "status" = Except.ok st)
    (hz : st.strictEqZero = true)
    (hv : data.getField "value" = Except.ok v) :
    _setExecuteAsyncCb hash data = Except.ok
      { key := "executeAsync", value := some v, errorMessage := none, uuid := hash, hash := hash } := by
  unfold _setExecuteAsyncCb
  rw [hst, exceptOkBind]
  simp only [hz, if_true]
  rw [hv, exceptOkBind]
  rfl

/-- `_setExecuteAsyncCb` on a non-zero status with a readable
`value.message` emits the errorMessage-carrying message. -/
lemma _setExecuteAsyncCb_ok_nonzero (hash : String) (data st v em : JVal)
    (hst : data.getField "status" = Except.ok st)
    (hz : st.strictEqZero = false)
    (hv : data.getField "value" = Except.ok v)
    (hm : v.getField "message" = Except.ok em) :
    _setExecuteAsyncCb hash data = Except.ok
      { key := "executeAsync", value := none, errorMessage := some em, uuid := hash, hash := hash } := by
  unfold _setExecuteAsyncCb
  rw [hst, exceptOkBind]
  simp only [hz, Bool.false_eq_true, if_false]
  rw [hv, exceptOkBind, hm, exceptOkBind]
  rfl

/-- `_setExecuteAsyncCb` propagates a throwing `status` read. -/
lemma _setExecuteAsyncCb_error_status (hash : String) (data : JVal) (e : String)
    (hst : data.getField "status" = Except.error e) :
    _setExecuteAsyncCb hash data = Except.error e := by
  unfold _setExecuteAsyncCb
  rw [hst, exceptErrorBind]

/-- `_setExecuteAsyncCb` on `status === 0` propagates a throwing `value`
read. -/
lemma _setExecuteAsyncCb_error_zero (hash : String) (data st : JVal) (e : String)
    (hst : data.getField "status" = Except.ok st)
    (hz : st.strictEqZero = true)
    (hv : data.getField "value" = Except.error e) :
    _setExecuteAsyncCb hash data = Except.error e := by
  unfold _setExecuteAsyncCb
  rw [hst, exceptOkBind]
  simp only [hz, if_true]
  rw [hv, exceptErrorBind]

/-- `_setExecuteAsyncCb` on a non-zero status propagates a throwing `value`
read. -/
lemma _setExecuteAsyncCb_error_nonzero_value (hash : String) (data st : JVal) (e : String)
    (hst : data.getField "status" = Except.ok st)
    (hz : st.strictEqZero = false)
    (hv : data.getField "value" = Except.error e) :
    _setExecuteAsyncCb hash data = Except.error e := by
  unfold _setExecuteAsyncCb
  rw [hst, exceptOkBind]
  simp only [hz, Bool.false_eq_true, if_false]
  rw [hv, exceptErrorBind]

/-- `_setExecuteAsyncCb` on a non-zero status propagates a throwing
`value.message` read (this is how the callback can itself throw on an error
payload whose `value` is `null`). -/
lemma _setExecuteAsyncCb_error_nonzero_message (hash : String) (data st v : JVal) (e : String)
    (hst : data.getField "status" = Except.ok st)
    (hz : st.strictEqZero = false)
    (hv : data.getField "value" = Except.ok v)
    (hm : v.getField "message" = Except.error e) :
    _setExecuteAsyncCb hash data = Except.error e := by
  unfold _setExecuteAsyncCb
  rw [hst, exceptOkBind]
  simp only [hz, Bool.false_eq_true, if_false]
  rw [hv, exceptOkBind, hm, exceptErrorBind]

/-- `_waitForCb` on a first result that reports true reaches the inert
success state. -/
lemma _waitForCb_true (hash : String) (ret : JVal)
    (h : userRetTrue ret = Except.ok true) :
    _waitForCb hash ret = Except.ok (waitDoneState hash) := by
  unfold _waitForCb
  rw [h, exceptOkBind]
  rfl

/-- `_waitForCb` on a first result that does not report true reaches the
armed, polling state. -/
lemma _waitForCb_false (hash : String) (ret : JVal)
    (h : userRetTrue ret = Except.ok false) :
    _waitForCb hash ret = Except.ok waitPendingState := by
  unfold _waitForCb
  rw [h, exceptOkBind]
  rfl

/-- `_waitForCb` propagates a throwing `userRet` test. -/
lemma _waitForCb_error (hash : String) (ret : JVal) (e : String)
    (h : userRetTrue ret = Except.error e) :
    _waitForCb hash ret = Except.error e := by
  unfold _waitForCb
  rw [h, exceptErrorBind]

/-! ## The claims -/

/-- C1: a `waitFor` whose polled script never reports the true sentinel
emits, once the timer fires, exactly one `driver:message` — the one tagged
`Interrupted by timeout` — and the pending poll responses delivered before or
after the timeout emit nothing further. -/
theorem waitFor_timeout_emits_exactly_once (hash : String) (ret : JVal)
    (evs : List WaitEvent) (s₀ s₁ : WaitState)
    (hfalse : userRetTrue ret = Except.ok false)
    (hinit : _waitForCb hash ret = Except.ok s₀)
    (hall : evs.all WaitEvent.nonTrueResp = true)
    (hcount : evs.countP WaitEvent.isTimeout = 1)
    (hrun : runWait hash s₀ evs = Except.ok s₁) :
    s₁.messages = [waitForTimeoutMsg hash] := by
  have hs₀ : s₀ = waitPendingState := by
    have h2 : _waitForCb hash ret = Except.ok waitPendingState := by
      unfold _waitForCb
      rw [hfalse]
      rfl
    rw [h2] at hinit
    exact ((Except.ok.injEq _ _).mp hinit).symm
  subst hs₀
  rw [runWait_until_timeout hash evs waitPendingState rfl rfl hall hcount] at hrun
  have := (Except.ok.injEq _ _).mp hrun
  rw [← this]
  rfl

/-- C1 witness: with a never-true script, the run consisting of a non-true
poll response, the timer firing, and a late non-true poll response ends with
exactly the timeout message. -/
theorem waitFor_timeout_emits_exactly_once_witness :
    userRetTrue pollFalseData = Except.ok false ∧
    (waitTimedOutState "h").messages = [waitForTimeoutMsg "h"] :=
  ⟨rfl,
   waitFor_timeout_emits_exactly_once "h" pollFalseData
     [WaitEvent.pollResponse pollFalseData, WaitEvent.timeout,
      WaitEvent.pollResponse pollFalseData]
     waitPendingState (waitTimedOutState "h") rfl rfl rfl rfl rfl⟩

/-- C4: a `waitFor` whose first polled result already reports true emits
exactly one success message (empty value, no error), cancels the timer, and
the process is inert afterwards: no sequence of later events changes the
state, so no timeout-tagged message can ever follow. -/
theorem waitFor_immediate_true_cancels_timer (hash : String) (ret : JVal) (s₀ : WaitState)
    (htrue : userRetTrue ret = Except.ok true)
    (hinit : _waitForCb hash ret = Except.ok s₀) :
    s₀.messages = [waitForSuccessMsg hash] ∧
    (waitForSuccessMsg hash).value = some (JVal.str "") ∧
    (waitForSuccessMsg hash).errorMessage = none ∧
    s₀.timerArmed = false ∧
    ∀ evs : List WaitEvent, runWait hash s₀ evs = Except.ok s₀ := by
  have hs₀ : s₀ = waitDoneState hash := by
    have h2 : _waitForCb hash ret = Except.ok (waitDoneState hash) := by
      unfold _waitForCb
      rw [htrue]
      rfl
    rw [h2] at hinit
    exact ((Except.ok.injEq _ _).mp hinit).symm
  subst hs₀
  refine ⟨rfl, rfl, rfl, rfl, ?_⟩
  intro evs
  exact runWait_inert hash evs (waitDoneState hash) rfl rfl

/-- C4 witness: with an immediately-true script the success state is reached,
and even delivering a timer-fire event and a further poll response afterwards
changes nothing. -/
theorem waitFor_immediate_true_cancels_timer_witness :
    userRetTrue pollTrueData = Except.ok true ∧
    (waitDoneState "h").messages = [waitForSuccessMsg "h"] ∧
    runWait "h" (waitDoneState "h")
      [WaitEvent.timeout, WaitEvent.pollResponse pollTrueData] =
      Except.ok (waitDoneState "h") :=
  ⟨rfl,
   (waitFor_immediate_true_cancels_timer "h" pollTrueData (waitDoneState "h") rfl rfl).1,
   (waitFor_immediate_true_cancels_timer "h" pollTrueData (waitDoneState "h") rfl rfl).2.2.2.2
     [WaitEvent.timeout, WaitEvent.pollResponse pollTrueData]⟩

/-- C9: every `driver:message` record emitted by any of the four result
callbacks carries a `uuid` field equal to its `hash` field, both being the
correlation hash passed to the originating public method. -/
theorem driverMessage_uuid_eq_hash (hash : String) :
    (∀ data m, _setExecuteCb hash data = Except.ok m → m.uuid = hash ∧ m.hash = hash) ∧
    (∀ data m, _setExecuteAsyncCb hash data = Except.ok m → m.uuid = hash ∧ m.hash = hash) ∧
    (∀ t, (_setAsyncScriptTimeoutCb t hash).uuid = hash ∧
          (_setAsyncScriptTimeoutCb t hash).hash = hash) ∧
    (∀ ret s₀ evs s₁, _waitForCb hash ret = Except.ok s₀ →
        runWait hash s₀ evs = Except.ok s₁ →
        ∀ m ∈ s₁.messages, m.uuid = hash ∧ m.hash = hash) := by
  refine ⟨?_, ?_, ?_, ?_⟩
  · intro data m hm
    cases hv : data.getField "value" with
    | error e =>
        rw [_setExecuteCb_error hash data e hv] at hm
        exact absurd hm (exceptErrorNeOk e m)
    | ok v =>
        rw [_setExecuteCb_ok hash data v hv] at hm
        have := (Except.ok.inj hm).symm
        subst this
        exact ⟨rfl, rfl⟩
  · intro data m hm
    cases hst : data.getField "status" with
    | error e =>
        rw [_setExecuteAsyncCb_error_status hash data e hst] at hm
        exact absurd hm (exceptErrorNeOk e m)
    | ok st =>
        by_cases hz : st.strictEqZero = true
        · cases hv : data.getField "value" with
          | error e =>
              rw [_setExecuteAsyncCb_error_zero hash data st e hst hz hv] at hm
              exact absurd hm (exceptErrorNeOk e m)
          | ok v =>
              rw [_setExecuteAsyncCb_ok_zero hash data st v hst hz hv] at hm
              have := (Except.ok.inj hm).symm
              subst this
              exact ⟨rfl, rfl⟩
        · rw [Bool.not_eq_true] at hz
          cases hv : data.getField "value" with
          | error e =>
              rw [_setExecuteAsyncCb_error_nonzero_value hash data st e hst hz hv] at hm
              exact absurd hm (exceptErrorNeOk e m)
          | ok v =>
              cases hmsg : v.getField "message" with
              | error e =>
                  rw [_setExecuteAsyncCb_error_nonzero_message hash data st v e hst hz hv hmsg] at hm
                  exact absurd hm (exceptErrorNeOk e m)
              | ok em =>
                  rw [_setExecuteAsyncCb_ok_nonzero hash data st v em hst hz hv hmsg] at hm
                  have := (Except.ok.inj hm).symm
                  subst this
                  exact ⟨rfl, rfl⟩
  · intro t
    exact ⟨rfl, rfl⟩
  · intro ret s₀ evs s₁ hinit hrun
    have hinv₀ : ∀ m ∈ s₀.messages, m.uuid = hash ∧ m.hash = hash := by
      cases hu : userRetTrue ret with
      | error e =>
          rw [_waitForCb_error hash ret e hu] at hinit
          exact absurd hinit (exceptErrorNeOk e s₀)
      | ok b =>
          cases b with
          | true =>
              rw [_waitForCb_true hash ret hu] at hinit
              have := (Except.ok.inj hinit).symm
              subst this
              intro m hm
              simp only [waitDoneState, List.mem_singleton] at hm
              subst hm
              exact ⟨rfl, rfl⟩
          | false =>
              rw [_waitForCb_false hash ret hu] at hinit
              have := (Except.ok.inj hinit).symm
              subst this
              intro m hm
              simp [waitPendingState] at hm
    exact runWait_uuid_inv hash evs s₀ s₁ hrun hinv₀

/-- C9 witness: concrete messages produced by the execute callback, the
asyncScriptTimeout callback, and a timed-out waitFor run all carry the
correlation hash in both `uuid` and `hash`. -/
theorem driverMessage_uuid_eq_hash_witness :
    ((Message.mk "execute" (some (JVal.num 3)) none "h" "h").uuid = "h" ∧
     (Message.mk "execute" (some (JVal.num 3)) none "h" "h").hash = "h") ∧
    ((_setAsyncScriptTimeoutCb 50 "h").uuid = "h" ∧ (_setAsyncScriptTimeoutCb 50 "h").hash = "h") ∧
    ((waitForTimeoutMsg "h").uuid = "h" ∧ (waitForTimeoutMsg "h").hash = "h") :=
  ⟨(driverMessage_uuid_eq_hash "h").1 (JVal.obj [("value", JVal.num 3)])
     (Message.mk "execute" (some (JVal.num 3)) none "h" "h") rfl,
   (driverMessage_uuid_eq_hash "h").2.2.1 50,
   (driverMessage_uuid_eq_hash "h").2.2.2 pollFalseData waitPendingState
     [WaitEvent.timeout] (waitTimedOutState "h") rfl rfl
     (waitForTimeoutMsg "h") (by simp [waitTimedOutState])⟩

/-- C3: for every parsed result payload whose `status` and `value` fields
are readable, `_setExecuteAsyncCb` emits a message with key `executeAsync`;
on `status === 0` its `value` is the payload value and `errorMessage` is
absent; on any other status its `errorMessage` is the payload
`value.message` and `value` is absent; no emitted message ever carries
both. -/
theorem executeAsync_result_branches (hash : String) (data st v : JVal)
    (hst : data.getField "status" = Except.ok st)
    (hv : data.getField "value" = Except.ok v) :
    (st.strictEqZero = true →
      _setExecuteAsyncCb hash data = Except.ok
        { key := "executeAsync", value := some v, errorMessage := none,
          uuid := hash, hash := hash }) ∧
    (st.strictEqZero = false → ∀ em, v.getField "message" = Except.ok em →
      _setExecuteAsyncCb hash data = Except.ok
        { key := "executeAsync", value := none, errorMessage := some em,
          uuid := hash, hash := hash }) ∧
    (∀ m, _setExecuteAsyncCb hash data = Except.ok m →
      m.key = "executeAsync" ∧ ¬(m.value.isSome = true ∧ m.errorMessage.isSome = true)) := by
  refine ⟨fun hz => _setExecuteAsyncCb_ok_zero hash data st v hst hz hv,
          fun hz em hm => _setExecuteAsyncCb_ok_nonzero hash data st v em hst hz hv hm,
          ?_⟩
  intro m hm
  by_cases hz : st.strictEqZero = true
  · rw [_setExecuteAsyncCb_ok_zero hash data st v hst hz hv] at hm
    have := (Except.ok.inj hm).symm
    subst this
    exact ⟨rfl, by simp⟩
  · rw [Bool.not_eq_true] at hz
    cases hmsg : v.getField "message" with
    | error e =>
        rw [_setExecuteAsyncCb_error_nonzero_message hash data st v e hst hz hv hmsg] at hm
        exact absurd hm (exceptErrorNeOk e m)
    | ok em =>
        rw [_setExecuteAsyncCb_ok_nonzero hash data st v em hst hz hv hmsg] at hm
        have := (Except.ok.inj hm).symm
        subst this
        exact ⟨rfl, by simp⟩

/-- C3 witness: a status-0 payload yields the value-carrying message and a
status-13 payload yields the errorMessage-carrying message. -/
theorem executeAsync_result_branches_witness :
    _setExecuteAsyncCb "h" asyncOkData = Except.ok
      { key := "executeAsync", value := some (JVal.str "ok"), errorMessage := none,
        uuid := "h", hash := "h" } ∧
    _setExecuteAsyncCb "h" asyncErrData = Except.ok
      { key := "executeAsync", value := none, errorMessage := some (JVal.str "boom"),
        uuid := "h", hash := "h" } :=
  ⟨(executeAsync_result_branches "h" asyncOkData (JVal.num 0) (JVal.str "ok") rfl rfl).1 rfl,
   (executeAsync_result_branches "h" asyncErrData (JVal.num 13)
      (JVal.obj [("message", JVal.str "boom")]) rfl rfl).2.1 rfl (JVal.str "boom") rfl⟩

/-- C2 counterexample: the claim "no operation ever raises, for every input"
fails. On the well-formed serialized payload with nonzero status and null
value — literally the JSON text with status 13 and value null — the
`executeAsync` result callback throws a TypeError reading `value.message`
instead of forwarding an `errorMessage`. -/
theorem executeAsyncCb_throws_on_null_value :
    _setExecuteAsyncCb "h" (JVal.obj [("status", JVal.num 13), ("value", JVal.null)]) =
      Except.error "TypeError: Cannot read property message of null" := rfl

/-- C2 (amended): the queue-filling methods are total, and the result
callbacks never raise on payloads whose accessed fields are readable: the
execute callback forwards the value; the executeAsync callback forwards the
value on status 0 and otherwise captures the remote failure as data in
`errorMessage`; the asyncScriptTimeout callback is unconditionally total;
the waitFor callback succeeds whenever the `userRet` test evaluates. -/
theorem adapter_noThrow_on_readable_fields (hash : String) (data v : JVal) :
    (data.getField "value" = Except.ok v →
      _setExecuteCb hash data = Except.ok
        { key := "execute", value := some v, errorMessage := none, uuid := hash, hash := hash }) ∧
    (∀ st, data.getField "status" = Except.ok st → data.getField "value" = Except.ok v →
      (st.strictEqZero = true →
        _setExecuteAsyncCb hash data = Except.ok
          { key := "executeAsync", value := some v, errorMessage := none,
            uuid := hash, hash := hash }) ∧
      (st.strictEqZero = false → ∀ em, v.getField "message" = Except.ok em →
        _setExecuteAsyncCb hash data = Except.ok
          { key := "executeAsync", value := none, errorMessage := some em,
            uuid := hash, hash := hash })) ∧
    (∀ t, _setAsyncScriptTimeoutCb t hash =
      { key := "asyncScriptTimeout", value := some (JVal.str ""), errorMessage := none,
        uuid := hash, hash := hash }) ∧
    (∀ b, userRetTrue data = Except.ok b → ∃ s, _waitForCb hash data = Except.ok s) := by
  refine ⟨fun hv => _setExecuteCb_ok hash data v hv, ?_, fun t => rfl, ?_⟩
  · intro st hst hv
    exact ⟨fun hz => _setExecuteAsyncCb_ok_zero hash data st v hst hz hv,
           fun hz em hm => _setExecuteAsyncCb_ok_nonzero hash data st v em hst hz hv hm⟩
  · intro b hb
    cases b with
    | true => exact ⟨waitDoneState hash, _waitForCb_true hash data hb⟩
    | false => exact ⟨waitPendingState, _waitForCb_false hash data hb⟩

/-- C2 (amended) witness: on a readable error payload the executeAsync
callback forwards the failure as `errorMessage` data, and on a readable poll
result the waitFor callback does not throw. -/
theorem adapter_noThrow_on_readable_fields_witness :
    _setExecuteAsyncCb "h" asyncErrData = Except.ok
      { key := "executeAsync", value := none, errorMessage := some (JVal.str "boom"),
        uuid := "h", hash := "h" } ∧
    (∃ s, _waitForCb "h" pollFalseData = Except.ok s) :=
  ⟨((adapter_noThrow_on_readable_fields "h" asyncErrData
      (JVal.obj [("message", JVal.str "boom")])).2.1 (JVal.num 13) rfl rfl).2 rfl
      (JVal.str "boom") rfl,
   (adapter_noThrow_on_readable_fields "h" pollFalseData JVal.undefined).2.2.2 false rfl⟩

/-- C5: `execute` appends exactly two entries — the bound remote
execute-script call with the stringified script and arguments, then the
bound result callback — returns the receiver with no other change (in
particular nothing is emitted and neither closure runs), and the enqueued
callback is exactly the JSON-parsing, success-emitting `_setExecuteCb`. -/
theorem execute_enqueues_two (d : Driver) (script : JSFunc) (args : List JVal) (hash : String) :
    execute d script args hash =
      { d with actionQueue := d.actionQueue ++
          [QueuedAction.remoteExecute ⟨script.toString, args⟩,
           QueuedAction.cbExecute script.toString args hash] } ∧
    (execute d script args hash).actionQueue.length = d.actionQueue.length + 2 ∧
    (execute d script args hash).emitted = d.emitted ∧
    (∀ data, _setExecuteCb hash data = (data.getField "value").map
        (fun v => { key := "execute", value := some v, errorMessage := none,
                    uuid := hash, hash := hash })) := by
  refine ⟨rfl, by simp [execute], rfl, ?_⟩
  intro data
  cases hv : data.getField "value" with
  | error e =>
      rw [_setExecuteCb_error hash data e hv]
      rfl
  | ok v =>
      rw [_setExecuteCb_ok hash data v hv]
      rfl

/-- C6: `asyncScriptTimeout` appends the bound remote async-script-timeout
call carrying the given milliseconds followed by the bound completion
callback, returns the receiver with no other change, and that callback emits
the completion message with key `asyncScriptTimeout` whose value is the
empty string (no result value) and which carries no `errorMessage`. -/
theorem asyncScriptTimeout_enqueues (d : Driver) (timeout : Int) (hash : String) :
    asyncScriptTimeout d timeout hash =
      { d with actionQueue := d.actionQueue ++
          [QueuedAction.remoteAsyncScript timeout,
           QueuedAction.cbAsyncScriptTimeout timeout hash] } ∧
    (asyncScriptTimeout d timeout hash).actionQueue.length = d.actionQueue.length + 2 ∧
    (asyncScriptTimeout d timeout hash).emitted = d.emitted ∧
    _setAsyncScriptTimeoutCb timeout hash =
      { key := "asyncScriptTimeout", value := some (JVal.str ""), errorMessage := none,
        uuid := hash, hash := hash } ∧
    (_setAsyncScriptTimeoutCb timeout hash).errorMessage = none :=
  ⟨rfl, by simp [asyncScriptTimeout], rfl, rfl, rfl⟩

/-- C10: every public method of the adapter only appends to the action
queue: the previously queued entries survive unchanged, in order, as the
prefix of the new queue; nothing is emitted and no other driver state
changes; `thenLocal` appends exactly one entry and the other methods exactly
two. -/
theorem public_methods_append_only (d : Driver) (script : JSFunc) (args : List JVal)
    (timeout : Int) (funcId : Nat) (hash : String) :
    ((execute d script args hash).actionQueue.take d.actionQueue.length = d.actionQueue ∧
     (execute d script args hash).actionQueue.length = d.actionQueue.length + 2 ∧
     (execute d script args hash).emitted = d.emitted) ∧
    ((executeAsync d script args hash).actionQueue.take d.actionQueue.length = d.actionQueue ∧
     (executeAsync d script args hash).actionQueue.length = d.actionQueue.length + 2 ∧
     (executeAsync d script args hash).emitted = d.emitted) ∧
    ((asyncScriptTimeout d timeout hash).actionQueue.take d.actionQueue.length = d.actionQueue ∧
     (asyncScriptTimeout d timeout hash).actionQueue.length = d.actionQueue.length + 2 ∧
     (asyncScriptTimeout d timeout hash).emitted = d.emitted) ∧
    ((waitFor d script args timeout hash).actionQueue.take d.actionQueue.length = d.actionQueue ∧
     (waitFor d script args timeout hash).actionQueue.length = d.actionQueue.length + 2 ∧
     (waitFor d script args timeout hash).emitted = d.emitted) ∧
    ((thenLocal d funcId hash).actionQueue.take d.actionQueue.length = d.actionQueue ∧
     (thenLocal d funcId hash).actionQueue.length = d.actionQueue.length + 1 ∧
     (thenLocal d funcId hash).emitted = d.emitted) := by
  refine ⟨⟨?_, by simp [execute], rfl⟩, ⟨?_, by simp [executeAsync], rfl⟩,
          ⟨?_, by simp [asyncScriptTimeout], rfl⟩, ⟨?_, by simp [waitFor], rfl⟩,
          ⟨?_, by simp [thenLocal], rfl⟩⟩ <;>
    simp [execute, executeAsync, asyncScriptTimeout, waitFor, thenLocal, List.take_left]

/-- C7: the CLI viewport flag with value `800,600` yields the
`{width: 800, height: 600}` configuration, and a value either of whose
comma-separated components fails numeric coercion yields the empty viewport
configuration. -/
theorem cli_viewport_parsing :
    (loadDalek none none none (some "800,600")).viewport = some (800, 600) ∧
    (loadDalek none none none (some "foo,600")).viewport = none ∧
    (loadDalek none none none (some "800,foo")).viewport = none :=
  ⟨rfl, rfl, rfl⟩

/-- C8: the CLI driver flag `a,b,c` yields the ordered sequence
`[a, b, c]`, an omitted driver flag yields the empty sequence, and the
reporter and browser flags go through the same comma-splitting
(`commaFlag`) as the driver flag. -/
theorem cli_comma_flags :
    (loadDalek (some "a,b,c") none none none).driver = ["a", "b", "c"] ∧
    (loadDalek none none none none).driver = [] ∧
    (∀ f r b v, (loadDalek f r b v).driver = commaFlag f ∧
                (loadDalek f r b v).reporter = commaFlag r ∧
                (loadDalek f r b v).browser = commaFlag b) :=
  ⟨rfl, rfl, fun _ _ _ _ => ⟨rfl, rfl, rfl⟩⟩
